import Mathlib

/-!
Shallow embedding of the CUDA Transpose planning and dispatch logic
(onnxruntime/core/providers/cuda/tensor/transpose.cc): the cublas
matrix-transpose detector `TryTransposeWithCublas`, the dimension-collapsing
loop of `Transpose::DoTranspose`, and the strategy dispatch among the three
execution adapters.  Dimension sizes, permutation entries and flat element
indices are modelled as `Nat` (the C++ code uses `int64_t`/`size_t` values
that are non-negative and far from overflow in all cases considered here).
-/

namespace OnnxCudaTranspose

/-- Product of a list of dimension sizes (element count of a shape,
`TensorShape::Size`). -/
def listProd (l : List Nat) : Nat := l.foldr (· * ·) 1

/-- Row-major strides of a shape (`TensorPitches`): the stride of axis `i` is
the product of all dimension sizes to its right; the last axis has stride 1. -/
def stridesOf : List Nat → List Nat
  | [] => []
  | _ :: ds => listProd ds :: stridesOf ds

/-- Modelled from the spec: the output shape of a transpose is the input shape
permuted, axis `i` of the output corresponding to axis `perm[i]` of the input
(spec section 3; computed by the external `ComputeOutputShape` collaborator). -/
def outShape (dims perm : List Nat) : List Nat := perm.map (fun p => dims.getD p 0)

/-- Partial sums of the index map of a transpose plan: contribution of output
axes `0, ..., n-1`. -/
def planIndexAux (istr ostr odims perm : List Nat) (k : Nat) : Nat → Nat
  | 0 => 0
  | n + 1 => planIndexAux istr ostr odims perm k n
      + ((k / ostr.getD n 1) % odims.getD n 1) * istr.getD (perm.getD n 0) 0

/-- The element reordering denoted by a transpose plan
`(rank, input dims, output dims, permutation)`: for the output flat index `k`,
the input flat index that is read.  Output coordinates are recovered from `k`
with the row-major output strides and each coordinate is multiplied by the
input stride of axis `perm[i]`, exactly the stride tables built in
`Transpose::DoTranspose` for the strided kernels (spec section 6). -/
def planIndex (rank : Nat) (idims odims perm : List Nat) (k : Nat) : Nat :=
  planIndexAux (stridesOf idims) (stridesOf odims) odims perm k rank

/-- Index map of a plain dense matrix transpose: output flat index `k` of the
transposed `N x M` result reads input element `(k % M) * N + k / M` of the
`M x N` row-major input. -/
def matIndex (M N k : Nat) : Nat := (k % M) * N + k / M

/-- `TryTransposeWithCublas` (transpose.cc lines 21-44): returns the pair
`(M, N)`, `(0, 0)` standing for "no fit". -/
def tryTransposeWithCublas (perm ishape : List Nat) : Nat × Nat :=
  if perm.length = 4 ∧ ishape.getD 0 0 = 1 ∧ perm.getD 0 0 = 0 then
    if (perm.getD 1 0 = 2 ∧ perm.getD 2 0 = 3 ∧ perm.getD 3 0 = 1) ∨
       (perm.getD 1 0 = 3 ∧ perm.getD 2 0 = 1 ∧ perm.getD 3 0 = 2) then
      if perm.getD 1 0 = 2 then
        (ishape.getD 1 0, ishape.getD 2 0 * ishape.getD 3 0)
      else
        (ishape.getD 1 0 * ishape.getD 2 0, ishape.getD 3 0)
    else (0, 0)
  else if perm.length = 2 ∧ perm.getD 1 0 = 0 ∧ perm.getD 0 0 = 1 then
    (ishape.getD 0 0, ishape.getD 1 0)
  else (0, 0)

/-- A matrix fit is present exactly when both returned integers are non-zero,
which is how `DoTranspose` decides to take the cublas path (line 80). -/
def hasFit (mn : Nat × Nat) : Prop := mn.1 ≠ 0 ∧ mn.2 ≠ 0

instance (mn : Nat × Nat) : Decidable (hasFit mn) := by unfold hasFit; infer_instance

/-- The rules of spec section 4.3 for a matrix-transpose fit, stated on the
permutation and the input shape (the two rank-4 3-cycles with batch 1, and the
rank-2 swap). -/
def matrixFitRule (perm dims : List Nat) : Prop :=
  (perm.length = 4 ∧ dims.getD 0 0 = 1 ∧ perm.getD 0 0 = 0 ∧
      ((perm.getD 1 0 = 2 ∧ perm.getD 2 0 = 3 ∧ perm.getD 3 0 = 1) ∨
       (perm.getD 1 0 = 3 ∧ perm.getD 2 0 = 1 ∧ perm.getD 3 0 = 2)))
  ∨ (perm.length = 2 ∧ perm.getD 0 0 = 1 ∧ perm.getD 1 0 = 0)

instance (perm dims : List Nat) : Decidable (matrixFitRule perm dims) := by
  unfold matrixFitRule; infer_instance

/-- State of the dimension-collapsing loop of `DoTranspose` (lines 96-130):
the three caller-supplied vectors (const references in the C++ code) together
with the four working values `new_rank`, `new_permutations`, `new_input_dims`,
`new_output_dims`.  The working lists keep the full original length, with
stale entries past the current `newRank`, exactly as the C++ vectors do. -/
structure CollapseState where
  perm : List Nat
  idims : List Nat
  odims : List Nat
  newRank : Nat
  newPerm : List Nat
  newIdims : List Nat
  newOdims : List Nat
  deriving Repr, DecidableEq

/-- The loop at lines 106-110: every entry of `new_permutations` at a position
below `new_rank` that is greater than `curr` is decremented by one. -/
def decAbove (n curr : Nat) : Nat → List Nat → List Nat
  | _, [] => []
  | j, v :: vs => (if j < n ∧ curr < v then v - 1 else v) :: decAbove n curr (j + 1) vs

/-- The in-place left shift `l[j-1] := l[j]` for `j` running from `start` up to
`stop - 1` (loops at lines 111-113, 117-119, 124-126): position `j` receives
the old value of position `j+1` when `start ≤ j+1 < stop`. -/
def shiftWin (start stop : Nat) (l : List Nat) : List Nat :=
  (List.range l.length).map (fun j =>
    if start ≤ j + 1 ∧ j + 1 < stop then l.getD (j + 1) 0 else l.getD j 0)

/-- One iteration of the collapsing loop body at output position `i`
(lines 102-129).  `curr` and `prev` are read from the ORIGINAL permutation
vector, as in the C++ code. -/
def fuseAt (i : Nat) (s : CollapseState) : CollapseState :=
  let curr := s.perm.getD i 0
  let prev := s.perm.getD (i - 1) 0
  if prev + 1 = curr then
    let p2 := shiftWin (i + 1) s.newRank (decAbove s.newRank curr 0 s.newPerm)
    let d1 := (s.newIdims.set prev (s.newIdims.getD prev 0 * s.newIdims.getD curr 0)).set curr 1
    let d2 := (shiftWin (curr + 1) s.newRank d1).set (s.newRank - 1) 1
    let o1 := (s.newOdims.set (i - 1) (s.newOdims.getD (i - 1) 0 * s.newOdims.getD i 0)).set i 1
    let o2 := (shiftWin (i + 1) s.newRank o1).set (s.newRank - 1) 1
    { s with newRank := s.newRank - 1, newPerm := p2, newIdims := d2, newOdims := o2 }
  else s

/-- The loop `for (i = rank - 1; i > 0; i--)`: processes positions
`n, n-1, ..., 1`. -/
def collapseLoop : Nat → CollapseState → CollapseState
  | 0, s => s
  | i + 1, s => collapseLoop i (fuseAt (i + 1) s)

/-- The dimension collapser of `DoTranspose` (lines 96-130): fresh working
copies of the permutation and the two shape vectors, then the right-to-left
fusion scan.  The rank is the length of the input shape (line 94). -/
def collapse (perm idims odims : List Nat) : CollapseState :=
  collapseLoop (idims.length - 1)
    { perm := perm, idims := idims, odims := odims,
      newRank := idims.length, newPerm := perm, newIdims := idims, newOdims := odims }

/-- Element types relevant to the dispatch (a sample of the fixed-size tensor
types registered for the kernel). -/
inductive ElemType where
  | float | double | half | uint8 | int32 | int64
  deriving Repr, DecidableEq

/-- The accelerated-eligible element types tested at lines 74-76: float,
double and MLFloat16. -/
def eligibleType (e : ElemType) : Prop :=
  e = ElemType.float ∨ e = ElemType.double ∨ e = ElemType.half

instance (e : ElemType) : Decidable (eligibleType e) := by
  unfold eligibleType; infer_instance

/-- Which execution adapter a call to `DoTranspose` hands the data to, with
the arguments it receives; `zeroSize` is the early `Status::OK()` return at
lines 70-71 where no adapter runs. -/
inductive Dispatch where
  | zeroSize
  | cublas (M N : Nat)
  | fixedRank (rank : Nat) (ishape istrides ostrides : List Nat)
  | general (rank : Nat) (istrides ostrides : List Nat)
  deriving Repr, DecidableEq

/-- Input strides permuted by the collapsed permutation
(`input_strides[i] = new_input_strides[new_permutations[i]]`, lines 153-156). -/
def permutedInputStrides (s : CollapseState) : List Nat :=
  (List.range s.newRank).map (fun i => (stridesOf s.newIdims).getD (s.newPerm.getD i 0) 0)

/-- Output strides permuted by the collapsed permutation for the 4D kernel
(`tmp_output_strides[i] = new_output_strides[new_permutations[i]]`,
lines 141-144). -/
def permutedOutputStrides (s : CollapseState) : List Nat :=
  (List.range s.newRank).map (fun i => (stridesOf s.newOdims).getD (s.newPerm.getD i 0) 0)

/-- The collapsed output strides handed to the general kernel as divisors
(lines 158-161). -/
def outputStridesGeneral (s : CollapseState) : List Nat :=
  (List.range s.newRank).map (fun i => (stridesOf s.newOdims).getD i 0)

/-- `Transpose::DoTranspose` (lines 67-167) as a strategy selector: which
adapter is invoked, with which plan data.  The opaque device-capability
predicate `canDoTranspose4D` is a parameter (it receives the element size, the
collapsed rank, the collapsed input dims and the collapsed permutation). -/
def doTranspose (can4D : Nat → Nat → List Nat → List Nat → Bool)
    (etype : ElemType) (esize : Nat) (perm idims odims : List Nat) : Dispatch :=
  if listProd odims = 0 then Dispatch.zeroSize
  else
    let mn := tryTransposeWithCublas perm idims
    if eligibleType etype ∧ mn.1 ≠ 0 ∧ mn.2 ≠ 0 then Dispatch.cublas mn.1 mn.2
    else
      let s := collapse perm idims odims
      if can4D esize s.newRank s.newIdims s.newPerm then
        Dispatch.fixedRank s.newRank s.newIdims (stridesOf s.newIdims) (permutedOutputStrides s)
      else
        Dispatch.general s.newRank (permutedInputStrides s) (outputStridesGeneral s)

/-- How many execution adapters a dispatch outcome invokes. -/
def adapterCount : Dispatch → Nat
  | Dispatch.zeroSize => 0
  | _ => 1

/-- Number of positions `j` with `1 ≤ j ≤ n` at which the ORIGINAL permutation
satisfies the fusion test `perm[j-1] + 1 = perm[j]`. -/
def countAdjUpTo (perm : List Nat) : Nat → Nat
  | 0 => 0
  | i + 1 => (if perm.getD i 0 + 1 = perm.getD (i + 1) 0 then 1 else 0) + countAdjUpTo perm i


lemma fuseAt_perm (i : Nat) (s : CollapseState) : (fuseAt i s).perm = s.perm := by
  simp only [fuseAt]; split <;> rfl

lemma fuseAt_idims (i : Nat) (s : CollapseState) : (fuseAt i s).idims = s.idims := by
  simp only [fuseAt]; split <;> rfl

lemma fuseAt_odims (i : Nat) (s : CollapseState) : (fuseAt i s).odims = s.odims := by
  simp only [fuseAt]; split <;> rfl

lemma fuseAt_newRank (i : Nat) (s : CollapseState) :
    (fuseAt i s).newRank
      = s.newRank - (if s.perm.getD (i - 1) 0 + 1 = s.perm.getD i 0 then 1 else 0) := by
  simp only [fuseAt]; split <;> rename_i h <;> simp [h]

lemma collapseLoop_perm (n : Nat) : ∀ s : CollapseState, (collapseLoop n s).perm = s.perm := by
  induction n with
  | zero => intro s; rfl
  | succ i ih => intro s; rw [collapseLoop, ih, fuseAt_perm]

lemma collapseLoop_idims (n : Nat) : ∀ s : CollapseState, (collapseLoop n s).idims = s.idims := by
  induction n with
  | zero => intro s; rfl
  | succ i ih => intro s; rw [collapseLoop, ih, fuseAt_idims]

lemma collapseLoop_odims (n : Nat) : ∀ s : CollapseState, (collapseLoop n s).odims = s.odims := by
  induction n with
  | zero => intro s; rfl
  | succ i ih => intro s; rw [collapseLoop, ih, fuseAt_odims]

lemma collapseLoop_newRank (n : Nat) :
    ∀ s : CollapseState, (collapseLoop n s).newRank = s.newRank - countAdjUpTo s.perm n := by
  induction n with
  | zero => intro s; rfl
  | succ i ih =>
    intro s
    rw [collapseLoop, ih, fuseAt_perm, fuseAt_newRank, countAdjUpTo]
    simp only [Nat.add_sub_cancel]
    rw [Nat.sub_sub]

lemma countAdjUpTo_le (perm : List Nat) : ∀ n, countAdjUpTo perm n ≤ n := by
  intro n
  induction n with
  | zero => simp [countAdjUpTo]
  | succ i ih => rw [countAdjUpTo]; split <;> omega

/-- C1: the claim that executing via the collapsed plan is element-for-element
identical to the naive reference reordering FAILS on the code: for input shape
`[2,2,2,2]` and permutation `[2,3,0,1]` the collapsed plan reads input element
2 for output flat index 1, while the unfused original reordering reads input
element 4.  (Root cause: later fusion steps of the collapsing loop index the
already-compacted working vectors with stale original permutation values.) -/
theorem collapse_plan_not_equivalent :
    planIndex (collapse [2, 3, 0, 1] [2, 2, 2, 2] [2, 2, 2, 2]).newRank
        (collapse [2, 3, 0, 1] [2, 2, 2, 2] [2, 2, 2, 2]).newIdims
        (collapse [2, 3, 0, 1] [2, 2, 2, 2] [2, 2, 2, 2]).newOdims
        (collapse [2, 3, 0, 1] [2, 2, 2, 2] [2, 2, 2, 2]).newPerm 1
      ≠ planIndex 4 [2, 2, 2, 2] [2, 2, 2, 2] [2, 3, 0, 1] 1 := by decide

/-- C2: the claim that the collapsed plan preserves the element count FAILS on
the code: for input shape `[2,2,2,2]` and permutation `[2,3,0,1]` the surviving
collapsed input dimensions are `[4,2]` with product 8, while the original
element count is 16 (the collapsed output side is `[4,4]`, which is correct). -/
theorem collapse_loses_elements :
    listProd ((collapse [2, 3, 0, 1] [2, 2, 2, 2] [2, 2, 2, 2]).newIdims.take
        (collapse [2, 3, 0, 1] [2, 2, 2, 2] [2, 2, 2, 2]).newRank) = 8
      ∧ listProd [2, 2, 2, 2] = 16
      ∧ listProd ((collapse [2, 3, 0, 1] [2, 2, 2, 2] [2, 2, 2, 2]).newOdims.take
          (collapse [2, 3, 0, 1] [2, 2, 2, 2] [2, 2, 2, 2]).newRank) = 16 := by decide

/-- C9: no operation of the core mutates the caller-supplied permutation or
the input/output shape vectors: the collapsing loop (the only component that
rewrites plan data) carries them through unchanged and builds the plan in
fresh working copies. -/
theorem collapse_preserves_caller_vectors (perm idims odims : List Nat) :
    (collapse perm idims odims).perm = perm
      ∧ (collapse perm idims odims).idims = idims
      ∧ (collapse perm idims odims).odims = odims := by
  refine ⟨?_, ?_, ?_⟩ <;>
    simp [collapse, collapseLoop_perm, collapseLoop_idims, collapseLoop_odims]

/-- C10: for every permutation of rank at least 1 the collapsed rank equals
the original rank minus the number of positions `i` in `[1, rank)` at which
the ORIGINAL permutation satisfies `perm[i-1] + 1 = perm[i]`; in particular
the collapsed rank is always at least 1. -/
theorem collapsed_rank_formula (perm idims odims : List Nat)
    (hlen : perm.length = idims.length) (hr : 1 ≤ perm.length) :
    (collapse perm idims odims).newRank
        = perm.length - countAdjUpTo perm (perm.length - 1)
      ∧ 1 ≤ (collapse perm idims odims).newRank := by
  have h : (collapse perm idims odims).newRank
      = idims.length - countAdjUpTo perm (idims.length - 1) :=
    collapseLoop_newRank (idims.length - 1)
      { perm := perm, idims := idims, odims := odims,
        newRank := idims.length, newPerm := perm, newIdims := idims, newOdims := odims }
  rw [h, ← hlen]
  have hle := countAdjUpTo_le perm (perm.length - 1)
  exact ⟨rfl, by omega⟩

/-- Witness for C10 at permutation `[0, 2, 1, 3]`, shape `[2, 3, 4, 5]`. -/
theorem collapsed_rank_formula_witness :
    (collapse [0, 2, 1, 3] [2, 3, 4, 5] [2, 4, 3, 5]).newRank
        = 4 - countAdjUpTo [0, 2, 1, 3] 3
      ∧ 1 ≤ (collapse [0, 2, 1, 3] [2, 3, 4, 5] [2, 4, 3, 5]).newRank :=
  collapsed_rank_formula [0, 2, 1, 3] [2, 3, 4, 5] [2, 4, 3, 5] (by decide) (by decide)

/-- C4: for every rank-2 input with permutation `(1,0)` the detector returns
`M = input_shape[0]`, `N = input_shape[1]`; in particular shape `[2,3]` with
permutation `[1,0]` yields the fit `(M = 2, N = 3)`. -/
theorem rank2_fit_values (d0 d1 : Nat) :
    tryTransposeWithCublas [1, 0] [d0, d1] = (d0, d1)
      ∧ tryTransposeWithCublas [1, 0] [2, 3] = (2, 3) :=
  ⟨rfl, rfl⟩

/-- C5: whenever the output element count is 0, the dispatcher succeeds
immediately and no execution adapter is invoked. -/
theorem zero_size_short_circuit (can4D : Nat → Nat → List Nat → List Nat → Bool)
    (etype : ElemType) (esize : Nat) (perm idims odims : List Nat)
    (h : listProd odims = 0) :
    doTranspose can4D etype esize perm idims odims = Dispatch.zeroSize := by
  simp [doTranspose, h]

/-- Witness for C5 at shape `[2, 0, 4]` with the identity permutation. -/
theorem zero_size_short_circuit_witness :
    listProd [2, 0, 4] = 0
      ∧ doTranspose (fun _ _ _ _ => true) ElemType.float 4 [0, 1, 2] [2, 0, 4] [2, 0, 4]
        = Dispatch.zeroSize :=
  ⟨by decide,
    zero_size_short_circuit (fun _ _ _ _ => true) ElemType.float 4 [0, 1, 2] [2, 0, 4]
      [2, 0, 4] (by decide)⟩

/-- C6 counterexample: the claim that EVERY call invokes exactly one adapter
is false: a call with a zero-sized output (shape `[2,0,4]`) invokes none. -/
theorem dispatch_zero_adapters_cex :
    adapterCount
      (doTranspose (fun _ _ _ _ => false) ElemType.float 4 [0, 1, 2] [2, 0, 4] [2, 0, 4])
      ≠ 1 := by decide

/-- C6 (amended): for every call whose output element count is non-zero,
exactly one of the three execution adapters is invoked. -/
theorem dispatch_exactly_one_adapter (can4D : Nat → Nat → List Nat → List Nat → Bool)
    (etype : ElemType) (esize : Nat) (perm idims odims : List Nat)
    (h : listProd odims ≠ 0) :
    adapterCount (doTranspose can4D etype esize perm idims odims) = 1 := by
  simp only [doTranspose, if_neg h]
  split_ifs <;> rfl

/-- Witness for the amended C6 at shape `[2, 3]`, permutation `[1, 0]`. -/
theorem dispatch_exactly_one_adapter_witness :
    listProd [3, 2] ≠ 0
      ∧ adapterCount
          (doTranspose (fun _ _ _ _ => false) ElemType.int32 4 [1, 0] [2, 3] [3, 2]) = 1 :=
  ⟨by decide,
    dispatch_exactly_one_adapter (fun _ _ _ _ => false) ElemType.int32 4 [1, 0] [2, 3]
      [3, 2] (by decide)⟩

/-- C7: for every call with non-zero output element count, an
accelerated-eligible element type and a matrix fit `(M, N)`, the dispatcher
invokes the cublas adapter with exactly that `(M, N)` and nothing else runs. -/
theorem cublas_fast_path (can4D : Nat → Nat → List Nat → List Nat → Bool)
    (etype : ElemType) (esize : Nat) (perm idims odims : List Nat)
    (h0 : listProd odims ≠ 0) (h1 : eligibleType etype)
    (h2 : (tryTransposeWithCublas perm idims).1 ≠ 0)
    (h3 : (tryTransposeWithCublas perm idims).2 ≠ 0) :
    doTranspose can4D etype esize perm idims odims
      = Dispatch.cublas (tryTransposeWithCublas perm idims).1
          (tryTransposeWithCublas perm idims).2 := by
  simp only [doTranspose, if_neg h0, if_pos (And.intro h1 (And.intro h2 h3))]

/-- Witness for C7: shape `[2, 3]`, permutation `[1, 0]`, float elements. -/
theorem cublas_fast_path_witness :
    doTranspose (fun _ _ _ _ => true) ElemType.float 4 [1, 0] [2, 3] [3, 2]
      = Dispatch.cublas 2 3 :=
  cublas_fast_path (fun _ _ _ _ => true) ElemType.float 4 [1, 0] [2, 3] [3, 2]
    (by decide) (by decide) (by decide) (by decide)

end OnnxCudaTranspose

namespace OnnxCudaTranspose

lemma length_eq_four {l : List Nat} (h : l.length = 4) : ∃ a b c d, l = [a, b, c, d] := by
  rcases l with _ | ⟨a, _ | ⟨b, _ | ⟨c, _ | ⟨d, _ | ⟨e, t⟩⟩⟩⟩⟩
  · simp at h
  · simp at h
  · simp at h
  · simp at h
  · exact ⟨a, b, c, d, rfl⟩
  · simp at h

lemma tryT_cases (perm dims : List Nat) :
    (perm.length = 4 ∧ dims.getD 0 0 = 1 ∧ perm.getD 0 0 = 0
        ∧ perm.getD 1 0 = 2 ∧ perm.getD 2 0 = 3 ∧ perm.getD 3 0 = 1
        ∧ tryTransposeWithCublas perm dims = (dims.getD 1 0, dims.getD 2 0 * dims.getD 3 0))
    ∨ (perm.length = 4 ∧ dims.getD 0 0 = 1 ∧ perm.getD 0 0 = 0
        ∧ perm.getD 1 0 = 3 ∧ perm.getD 2 0 = 1 ∧ perm.getD 3 0 = 2
        ∧ tryTransposeWithCublas perm dims = (dims.getD 1 0 * dims.getD 2 0, dims.getD 3 0))
    ∨ (perm.length = 2 ∧ perm.getD 0 0 = 1 ∧ perm.getD 1 0 = 0
        ∧ tryTransposeWithCublas perm dims = (dims.getD 0 0, dims.getD 1 0))
    ∨ (tryTransposeWithCublas perm dims = (0, 0) ∧ ¬ matrixFitRule perm dims) := by
  unfold tryTransposeWithCublas matrixFitRule
  split_ifs with h1 h2 h3 h4
  · rcases h2 with ⟨ha, hb, hc⟩ | ⟨ha, hb, hc⟩
    · exact Or.inl ⟨h1.1, h1.2.1, h1.2.2, ha, hb, hc, rfl⟩
    · exact absurd h3 (by omega)
  · rcases h2 with ⟨ha, hb, hc⟩ | ⟨ha, hb, hc⟩
    · exact absurd ha h3
    · exact Or.inr (Or.inl ⟨h1.1, h1.2.1, h1.2.2, ha, hb, hc, rfl⟩)
  · refine Or.inr (Or.inr (Or.inr ⟨rfl, ?_⟩))
    rintro (⟨hl, hd, hp, hcyc⟩ | ⟨hl, hp0, hp1⟩)
    · exact h2 hcyc
    · have := h1.1
      omega
  · exact Or.inr (Or.inr (Or.inl ⟨h4.1, h4.2.2, h4.2.1, rfl⟩))
  · refine Or.inr (Or.inr (Or.inr ⟨rfl, ?_⟩))
    rintro (⟨hl, hd, hp, hcyc⟩ | ⟨hl, hp0, hp1⟩)
    · exact h1 ⟨hl, hd, hp⟩
    · exact h4 ⟨hl, hp1, hp0⟩

lemma matfit2 (d0 d1 k : Nat) (h0 : 0 < d0) (hk : k < listProd [d0, d1]) :
    planIndex 2 [d0, d1] [d1, d0] [1, 0] k = (k % d0) * d1 + k / d0 := by
  have hlt : k / d0 < d1 := by
    rw [Nat.div_lt_iff_lt_mul h0, Nat.mul_comm]
    simpa [listProd] using hk
  have hunf : planIndex 2 [d0, d1] [d1, d0] [1, 0] k
      = 0 + ((k / (d0 * 1)) % d1) * 1 + ((k / 1) % d0) * (d1 * 1) := rfl
  rw [hunf]
  simp only [Nat.mul_one, Nat.div_one, Nat.zero_add]
  rw [Nat.mod_eq_of_lt hlt]
  exact Nat.add_comm _ _

lemma matfit4A (e1 e2 e3 k : Nat) (h1 : 0 < e1) (h3 : 0 < e3)
    (hk : k < listProd [1, e1, e2, e3]) :
    planIndex 4 [1, e1, e2, e3] [1, e2, e3, e1] [0, 2, 3, 1] k
      = (k % e1) * (e2 * e3) + k / e1 := by
  have hunf : planIndex 4 [1, e1, e2, e3] [1, e2, e3, e1] [0, 2, 3, 1] k
      = 0 + ((k / (e2 * (e3 * (e1 * 1)))) % 1) * (e1 * (e2 * (e3 * 1)))
        + ((k / (e3 * (e1 * 1))) % e2) * (e3 * 1)
        + ((k / (e1 * 1)) % e3) * 1
        + ((k / 1) % e1) * (e2 * (e3 * 1)) := rfl
  rw [hunf]
  simp only [Nat.mul_one, Nat.div_one, Nat.mod_one, Nat.zero_mul, Nat.mul_zero, Nat.zero_add,
    Nat.add_zero]
  have hq : k / (e3 * e1) = k / e1 / e3 := by
    rw [Nat.mul_comm e3 e1, ← Nat.div_div_eq_div_mul]
  have hqlt : k / e1 < e2 * e3 := by
    rw [Nat.div_lt_iff_lt_mul h1, Nat.mul_comm]
    simpa [listProd] using hk
  have hq3 : k / e1 / e3 < e2 := by
    rw [Nat.div_lt_iff_lt_mul h3]
    exact hqlt
  rw [hq, Nat.mod_eq_of_lt hq3, Nat.div_add_mod' (k / e1) e3]
  exact Nat.add_comm _ _

lemma matfit4B (e1 e2 e3 k : Nat) (hM : 0 < e1 * e2)
    (hk : k < listProd [1, e1, e2, e3]) :
    planIndex 4 [1, e1, e2, e3] [1, e3, e1, e2] [0, 3, 1, 2] k
      = (k % (e1 * e2)) * e3 + k / (e1 * e2) := by
  have hunf : planIndex 4 [1, e1, e2, e3] [1, e3, e1, e2] [0, 3, 1, 2] k
      = 0 + ((k / (e3 * (e1 * (e2 * 1)))) % 1) * (e1 * (e2 * (e3 * 1)))
        + ((k / (e1 * (e2 * 1))) % e3) * 1
        + ((k / (e2 * 1)) % e1) * (e2 * (e3 * 1))
        + ((k / 1) % e2) * (e3 * 1) := rfl
  rw [hunf]
  simp only [Nat.mul_one, Nat.div_one, Nat.mod_one, Nat.zero_mul, Nat.mul_zero, Nat.zero_add,
    Nat.add_zero]
  have hd : k / (e1 * e2) < e3 := by
    rw [Nat.div_lt_iff_lt_mul hM]
    rw [show e3 * (e1 * e2) = e1 * (e2 * e3) by ring]
    simpa [listProd] using hk
  rw [Nat.mod_eq_of_lt hd, Nat.mul_comm e1 e2, Nat.mod_mul]
  ring

/-- C3 counterexample: the claim that at rank 4 a fit is returned EXACTLY when
the batch dimension is 1, `perm[0] = 0` and the axes form one of the two
3-cycles is false as stated: shape `[1,0,4,5]` with permutation `[0,2,3,1]`
satisfies all the conditions, yet the detector returns `M = 0` and no fit. -/
theorem rank4_fit_zero_dim_cex :
    ([1, 0, 4, 5] : List Nat).getD 0 0 = 1 ∧ ([0, 2, 3, 1] : List Nat).getD 0 0 = 0
      ∧ ([0, 2, 3, 1] : List Nat).getD 1 0 = 2 ∧ ([0, 2, 3, 1] : List Nat).getD 2 0 = 3
      ∧ ([0, 2, 3, 1] : List Nat).getD 3 0 = 1
      ∧ ¬ hasFit (tryTransposeWithCublas [0, 2, 3, 1] [1, 0, 4, 5]) := by decide

/-- C3 (amended): for every rank-4 input with positive dimension sizes, the
detector returns a fit exactly when the leading dimension is 1,
`perm[0] = 0` and the remaining axes form the 3-cycle `(2,3,1)` (then
`M = shape[1]`, `N = shape[2]*shape[3]`) or `(3,1,2)` (then
`M = shape[1]*shape[2]`, `N = shape[3]`); in particular shape `[1,3,4,5]`
with permutation `[0,2,3,1]` yields `(M = 3, N = 20)`. -/
theorem rank4_fit_characterization (p0 p1 p2 p3 d0 d1 d2 d3 : Nat)
    (h1 : 0 < d1) (h2 : 0 < d2) (h3 : 0 < d3) :
    (hasFit (tryTransposeWithCublas [p0, p1, p2, p3] [d0, d1, d2, d3])
        ↔ d0 = 1 ∧ p0 = 0 ∧ ((p1 = 2 ∧ p2 = 3 ∧ p3 = 1) ∨ (p1 = 3 ∧ p2 = 1 ∧ p3 = 2)))
    ∧ (d0 = 1 → p0 = 0 → p1 = 2 → p2 = 3 → p3 = 1 →
        tryTransposeWithCublas [p0, p1, p2, p3] [d0, d1, d2, d3] = (d1, d2 * d3))
    ∧ (d0 = 1 → p0 = 0 → p1 = 3 → p2 = 1 → p3 = 2 →
        tryTransposeWithCublas [p0, p1, p2, p3] [d0, d1, d2, d3] = (d1 * d2, d3))
    ∧ tryTransposeWithCublas [0, 2, 3, 1] [1, 3, 4, 5] = (3, 20) := by
  refine ⟨⟨?_, ?_⟩, ?_, ?_, by decide⟩
  · intro hf
    rcases tryT_cases [p0, p1, p2, p3] [d0, d1, d2, d3] with
      ⟨hl, hd0, hp0, hc1, hc2, hc3, heq⟩ | ⟨hl, hd0, hp0, hc1, hc2, hc3, heq⟩ |
      ⟨hl, hp0, hp1, heq⟩ | ⟨heq, hnr⟩
    · exact ⟨hd0, hp0, Or.inl ⟨hc1, hc2, hc3⟩⟩
    · exact ⟨hd0, hp0, Or.inr ⟨hc1, hc2, hc3⟩⟩
    · have h42 : (4 : Nat) = 2 := hl
      exact absurd h42 (by decide)
    · rw [heq] at hf
      exact absurd rfl hf.1
  · rintro ⟨rfl, rfl, (⟨rfl, rfl, rfl⟩ | ⟨rfl, rfl, rfl⟩)⟩
    · have heq : tryTransposeWithCublas [0, 2, 3, 1] [1, d1, d2, d3] = (d1, d2 * d3) := rfl
      rw [heq]
      refine ⟨by omega, ?_⟩
      have := Nat.mul_pos h2 h3
      omega
    · have heq : tryTransposeWithCublas [0, 3, 1, 2] [1, d1, d2, d3] = (d1 * d2, d3) := rfl
      rw [heq]
      refine ⟨?_, by omega⟩
      have := Nat.mul_pos h1 h2
      omega
  · rintro rfl rfl rfl rfl rfl
    rfl
  · rintro rfl rfl rfl rfl rfl
    rfl

/-- Witness for the amended C3: shape `[1,3,4,5]`, permutation `[0,2,3,1]`
has a matrix fit. -/
theorem rank4_fit_characterization_witness :
    hasFit (tryTransposeWithCublas [0, 2, 3, 1] [1, 3, 4, 5]) :=
  ((rank4_fit_characterization 0 2 3 1 1 3 4 5 (by decide) (by decide) (by decide)).1).mpr
    (by decide)

end OnnxCudaTranspose

namespace OnnxCudaTranspose

/-- C8 counterexample: the claim that a fit is returned if and only if the
section 4.3 rules match is false as stated: shape `[0,3]` with permutation
`[1,0]` matches the rank-2 rule, yet the detector returns `M = 0`, no fit. -/
theorem matrix_fit_rule_zero_dim_cex :
    matrixFitRule [1, 0] [0, 3] ∧ ¬ hasFit (tryTransposeWithCublas [1, 0] [0, 3]) := by
  decide

/-- C8 (amended): for shapes all of whose dimension sizes are positive, the
detector returns a fit exactly when the section 4.3 rules match (so outside
the listed rank-4 and rank-2 patterns, at every rank, there is no fit), and
every returned fit `(M, N)` denotes an operation whose element reordering is
exactly the transposition of an `M x N` row-major matrix. -/
theorem matrix_fit_exactness (perm dims : List Nat)
    (hlen : dims.length = perm.length) (hpos : ∀ d ∈ dims, 0 < d) :
    (hasFit (tryTransposeWithCublas perm dims) ↔ matrixFitRule perm dims)
    ∧ (hasFit (tryTransposeWithCublas perm dims) →
        ∀ k, k < listProd dims →
          planIndex perm.length dims (outShape dims perm) perm k
            = matIndex (tryTransposeWithCublas perm dims).1
                (tryTransposeWithCublas perm dims).2 k) := by
  rcases tryT_cases perm dims with
    ⟨hl, hd0, hp0, hc1, hc2, hc3, heq⟩ | ⟨hl, hd0, hp0, hc1, hc2, hc3, heq⟩ |
    ⟨hl, hp0, hp1, heq⟩ | ⟨heq, hnr⟩
  · obtain ⟨a, b, c, d, rfl⟩ := length_eq_four hl
    obtain ⟨x, y, z, w, rfl⟩ := length_eq_four (hlen.trans hl)
    have ha : a = 0 := hp0
    have hb : b = 2 := hc1
    have hc : c = 3 := hc2
    have hd : d = 1 := hc3
    have hx : x = 1 := hd0
    subst ha hb hc hd hx
    have hy : 0 < y := hpos y (by simp)
    have hz : 0 < z := hpos z (by simp)
    have hw : 0 < w := hpos w (by simp)
    constructor
    · rw [heq]
      refine iff_of_true ⟨?_, ?_⟩ (Or.inl ⟨rfl, rfl, rfl, Or.inl ⟨rfl, rfl, rfl⟩⟩)
      · show y ≠ 0
        omega
      · show z * w ≠ 0
        have := Nat.mul_pos hz hw
        omega
    · intro _ k hk
      exact matfit4A y z w k hy hw hk
  · obtain ⟨a, b, c, d, rfl⟩ := length_eq_four hl
    obtain ⟨x, y, z, w, rfl⟩ := length_eq_four (hlen.trans hl)
    have ha : a = 0 := hp0
    have hb : b = 3 := hc1
    have hc : c = 1 := hc2
    have hd : d = 2 := hc3
    have hx : x = 1 := hd0
    subst ha hb hc hd hx
    have hy : 0 < y := hpos y (by simp)
    have hz : 0 < z := hpos z (by simp)
    have hw : 0 < w := hpos w (by simp)
    constructor
    · rw [heq]
      refine iff_of_true ⟨?_, ?_⟩ (Or.inl ⟨rfl, rfl, rfl, Or.inr ⟨rfl, rfl, rfl⟩⟩)
      · show y * z ≠ 0
        have := Nat.mul_pos hy hz
        omega
      · show w ≠ 0
        omega
    · intro _ k hk
      exact matfit4B y z w k (Nat.mul_pos hy hz) hk
  · obtain ⟨a, b, rfl⟩ := List.length_eq_two.mp hl
    obtain ⟨x, y, rfl⟩ := List.length_eq_two.mp (hlen.trans hl)
    have ha : a = 1 := hp0
    have hb : b = 0 := hp1
    subst ha hb
    have hx : 0 < x := hpos x (by simp)
    have hy : 0 < y := hpos y (by simp)
    constructor
    · rw [heq]
      refine iff_of_true ⟨?_, ?_⟩ (Or.inr ⟨rfl, rfl, rfl⟩)
      · show x ≠ 0
        omega
      · show y ≠ 0
        omega
    · intro _ k hk
      exact matfit2 x y k hx hk
  · constructor
    · rw [heq]
      refine iff_of_false ?_ hnr
      rintro ⟨h, _⟩
      exact h rfl
    · intro hf
      rw [heq] at hf
      exact absurd rfl hf.1

/-- Witness for the amended C8 at permutation `[1,0]`, shape `[2,3]`. -/
theorem matrix_fit_exactness_witness :
    (hasFit (tryTransposeWithCublas [1, 0] [2, 3]) ↔ matrixFitRule [1, 0] [2, 3])
    ∧ (hasFit (tryTransposeWithCublas [1, 0] [2, 3]) →
        ∀ k, k < listProd [2, 3] →
          planIndex ([1, 0] : List Nat).length [2, 3] (outShape [2, 3] [1, 0]) [1, 0] k
            = matIndex (tryTransposeWithCublas [1, 0] [2, 3]).1
                (tryTransposeWithCublas [1, 0] [2, 3]).2 k) :=
  matrix_fit_exactness [1, 0] [2, 3] (by decide) (by decide)

end OnnxCudaTranspose
